import Mathlib

/-!
Verification of the research-graph orchestration engine of the
open-deep-research repository.  The definitions below are shallow
embeddings of the TypeScript source: pure functions are translated
directly, stateful loops become explicit state passing, remote calls
become explicit outcome parameters, and JavaScript numbers that carry
relevance scores become exact rationals.
-/

/-- JavaScript `String.prototype.includes`, on Lean strings: `pat` occurs
as a contiguous substring of `s`. -/
def strIncludes (s pat : String) : Bool :=
  let ls := s.toList
  let lp := pat.toList
  (List.range (ls.length + 1)).any (fun i => lp.isPrefixOf (ls.drop i))

/-- Whitespace class used by the JavaScript regexes (`\s`) and by
`JSON.parse`; modelled as the ASCII whitespace characters (the claims and
inputs considered here are ASCII, so the Unicode spaces matched by the
JavaScript `\s` class do not arise). -/
def isJsWs (c : Char) : Bool :=
  c == ' ' || c == '\t' || c == '\n' || c == '\r' || c == '\x0b' || c == '\x0c'

/-- Suffix of `l` that follows the first occurrence of `pat`, or `none`
when `pat` does not occur. -/
def afterSub (pat : List Char) : List Char → Option (List Char)
  | [] => if pat.isEmpty then some [] else none
  | c :: rest =>
    if pat.isPrefixOf (c :: rest) then some ((c :: rest).drop pat.length)
    else afterSub pat rest

/-- Characters after the last occurrence of `ch` (the whole list when `ch`
does not occur). -/
def takeAfterLast (ch : Char) (l : List Char) : List Char :=
  l.foldl (fun acc c => if c == ch then [] else acc ++ [c]) []

/-- Hostname extraction for `new URL(u).hostname` on ordinary
`scheme://host/path` URLs: drop the scheme, cut the authority at the first
path/query/fragment delimiter, drop userinfo and port, and lowercase.
(Punycode and IPv6 literals are not modelled; no claim depends on them.) -/
def hostname (url : String) : String :=
  let cs := url.toList
  let rest := match afterSub "://".toList cs with
    | some r => r
    | none => cs
  let auth := rest.takeWhile (fun c => !(c == '/' || c == '?' || c == '#'))
  let noUser := takeAfterLast '@' auth
  let noPort := noUser.takeWhile (fun c => !(c == ':'))
  String.mk (noPort.map Char.toLower)

/-- Normalized search result shape used by `src/app/page.tsx`
(`id`/`url`/`name`/`snippet` from the Search Service, a relevance `score`,
optional inline full text `content`).  Scores are exact rationals. -/
structure SearchResult where
  id : String
  url : String
  name : String
  snippet : String
  score : ℚ
  content : Option String
deriving Repr, DecidableEq

/-- The 0.5 score threshold of the diversity filter, written in reduced
`num/den` constructor form so that the kernel can evaluate comparisons
against it (`(1 : ℚ)/2` itself is proved equal to it below). -/
def half : ℚ := ⟨1, 2, by decide, by decide⟩

/-- Body of the diversity-selection filter of `handleAgentSearch`
(src/app/page.tsx lines 537-551).  The JavaScript `Array.filter` with a
mutable `selectedUrls : Set<string>` closure is written as a recursion
that threads the set (as the list of accepted URLs, in insertion order):
stop accepting once `K` results are taken, skip a result whose hostname is
already represented, and accept a result only when its score is truthy and
strictly greater than 0.5. -/
def diversityGo (K : Nat) (selectedUrls : List String) : List SearchResult → List SearchResult
  | [] => []
  | r :: rest =>
    if K ≤ selectedUrls.length then
      diversityGo K selectedUrls rest
    else
      let domain := hostname r.url
      let hasSimilar := selectedUrls.any (fun u => hostname u == domain)
      if !hasSimilar && !(decide (r.score = 0)) && decide (half < r.score) then
        r :: diversityGo K (selectedUrls ++ [r.url]) rest
      else
        diversityGo K selectedUrls rest

/-- Diversity Selector: the filter of src/app/page.tsx lines 537-551
started with an empty accepted-URL set. -/
def diversitySelect (K : Nat) (rankedResults : List SearchResult) : List SearchResult :=
  diversityGo K [] rankedResults

/-- Modelled from the spec: `CONFIG.search.maxSelectableResults`
(`lib/config.ts` is not among the provided sources; the repository README
lists `maxSelectableResults: 3`, and the spec gives `K` = 3). -/
def maxSelectableResults : Nat := 3

/-- Lines 537-557 of src/app/page.tsx: run the diversity filter over the
ranked results and throw the named error when the selection is empty,
otherwise hand the selection downstream. -/
def selectionStage (K : Nat) (rankedResults : List SearchResult) :
    Except String (List SearchResult) :=
  let selected := diversitySelect K rankedResults
  if selected.length = 0 then
    .error "Could not find enough diverse, high-quality sources. Please try a different query."
  else
    .ok selected

/-- Observable trace of one `retryWithBackoff` run: the value returned or
error thrown, how many times `operation` was invoked, and the sleeps
performed (in order, in milliseconds). -/
structure RetryTrace (α : Type) where
  result : Except String α
  calls : Nat
  delays : List Nat
deriving Repr

/-- Loop body of `retryWithBackoff` (src/app/page.tsx lines 83-104).  The
operation is modelled as a map from attempt index to outcome; an error is
its message string, and the rate-limit test is the source's
`error.message.includes('429')`.  `i` is the loop counter, `delays` the
sleeps performed so far, `last` the `lastError` variable. -/
def retryLoop {α : Type} (ops : Nat → Except String α) (maxRetries baseDelay : Nat)
    (i : Nat) (delays : List Nat) (last : Option String) : RetryTrace α :=
  if i < maxRetries then
    match ops i with
    | .ok v => ⟨.ok v, i + 1, delays⟩
    | .error e =>
      if strIncludes e "429" then
        retryLoop ops maxRetries baseDelay (i + 1) (delays ++ [baseDelay * 2 ^ i]) (some e)
      else
        ⟨.error e, i + 1, delays⟩
  else
    ⟨.error (last.getD ""), i, delays⟩
termination_by maxRetries - i
decreasing_by omega

/-- Retry Controller `retryWithBackoff` of src/app/page.tsx lines 83-104,
as a trace: defaults in the source are `maxRetries = 3`,
`baseDelay = 1000`. -/
def retryWithBackoff {α : Type} (ops : Nat → Except String α)
    (maxRetries baseDelay : Nat) : RetryTrace α :=
  retryLoop ops maxRetries baseDelay 0 [] none

/-- Concrete ranked-result list used to witness the Diversity Selector
invariants: descending scores, a duplicated hostname, one result exactly
at the 0.5 threshold and one below it. -/
def sampleRanked : List SearchResult :=
  [ ⟨"1", "https://a.com/x", "A", "s", 1, none⟩,
    ⟨"2", "https://a.com/y", "B", "s", ⟨9, 10, by decide, by decide⟩, none⟩,
    ⟨"3", "https://b.com/x", "C", "s", ⟨3, 4, by decide, by decide⟩, none⟩,
    ⟨"4", "https://c.com/x", "D", "s", half, none⟩,
    ⟨"5", "https://d.com/x", "E", "s", ⟨2, 5, by decide, by decide⟩, none⟩ ]

/-- Ranked list on which no result clears the strict 0.5 threshold. -/
def sampleLow : List SearchResult :=
  [ ⟨"1", "https://a.com/x", "A", "s", half, none⟩,
    ⟨"2", "https://b.com/x", "B", "s", 0, none⟩ ]

/-- Operation that is rate-limited on its first attempt and succeeds on the
second; used to witness the Retry Controller contract. -/
def witnessOps : Nat → Except String Nat :=
  fun i => if i = 0 then .error "error 429" else .ok 7

/-- Report section shape (`sections: {title, content}[]`). -/
structure ReportSection where
  title : String
  content : String
deriving Repr, DecidableEq

/-- Report source reference (`sources: {id, url, name}[]`). -/
structure ReportSource where
  id : String
  url : String
  name : String
deriving Repr, DecidableEq

/-- Structured report produced by the Report Synthesizer. -/
structure Report where
  title : String
  summary : String
  sections : List ReportSection
  sources : List ReportSource
deriving Repr, DecidableEq

/-- Slice of a flow-graph node that `consolidateReports` inspects: its id
and the report held in `node.data.report` (none when absent). -/
structure FlowNode where
  id : String
  report : Option Report
deriving Repr, DecidableEq

/-- Observable outcome of one `consolidateReports` call: whether it
returned `success: true`, whether the `/api/consolidate-report` request
was issued, and the consolidation edges added (source id, target id). -/
structure ConsolidateOutcome where
  success : Bool
  remoteCalled : Bool
  edges : List (String × String)
deriving Repr, DecidableEq

/-- Consolidation Engine `consolidateReports` of src/app/flow/page.tsx
lines 529-610.  The remote Model Service call is the `remote` parameter
(`none` models a failed request); `newNodeId` is the id assigned to the
newly created consolidated report node.  Precondition checks mirror the
source: fewer than 2 selected ids, or fewer than 2 selected nodes holding
a report, fail before the fetch; on success one edge is created from every
selected id to the new node. -/
def consolidateReports (selectedReports : List String) (nodes : List FlowNode)
    (remote : Option Report) (newNodeId : String) : ConsolidateOutcome :=
  if selectedReports.length < 2 then ⟨false, false, []⟩
  else
    let reportsToConsolidate :=
      (nodes.filter (fun n => selectedReports.contains n.id && n.report.isSome)).filterMap
        (fun n => n.report)
    if reportsToConsolidate.length < 2 then ⟨false, false, []⟩
    else
      match remote with
      | none => ⟨false, true, []⟩
      | some _ => ⟨true, true, selectedReports.map (fun rid => (rid, newNodeId))⟩

/-- Per-source status recorded in the agent round's `sourceStatuses` map. -/
inductive SourceStatus where
  | fetched
  | preview
deriving Repr, DecidableEq

/-- Entry of the `contentResults` array handed to the report stage. -/
structure ContentResult where
  url : String
  title : String
  content : String
deriving Repr, DecidableEq

/-- JavaScript truthiness of an optional string (`undefined`/`null` and
`""` are falsy). -/
def truthyStr : Option String → Bool
  | some s => !s.isEmpty
  | none => false

/-- JavaScript `a || b` for a nullable string `a` with default `b`. -/
def jsOrStr (o : Option String) (dflt : String) : String :=
  match o with
  | some s => if s.isEmpty then dflt else s
  | none => dflt

/-- Per-source content step of `handleGenerateReport`
(src/app/flow/page.tsx lines 254-287): inline `result.content` short-cuts
the fetch; otherwise the fetch outcome (`.ok` with nullable body, or
`.error` for a rejected/non-ok request) degrades to the snippet. -/
def processSourceFlow (result : SearchResult)
    (fetchOutcome : Except String (Option String)) : ContentResult :=
  if truthyStr result.content then ⟨result.url, result.name, result.content.getD ""⟩
  else
    match fetchOutcome with
    | .ok c => ⟨result.url, result.name, jsOrStr c result.snippet⟩
    | .error _ => ⟨result.url, result.name, result.snippet⟩

/-- The `Promise.all` batch over the selected results: one independent
`processSourceFlow` per source. -/
def batchFlow (results : List SearchResult)
    (oracle : SearchResult → Except String (Option String)) : List ContentResult :=
  results.map (fun r => processSourceFlow r (oracle r))

/-- `fetchContent` of src/app/page.tsx lines 167-182: a non-ok HTTP
response throws `Failed to fetch content` inside the same try, and the
catch swallows every error except one whose message contains "429"; the
raw request outcome is `resp` (`.error` = rejected promise, `.ok (ok, body)`
= HTTP response with its parsed nullable content). -/
def fetchContent (resp : Except String (Bool × Option String)) :
    Except String (Option String) :=
  match resp with
  | .ok (respOk, data) =>
    if respOk then .ok data
    else if strIncludes "Failed to fetch content" "429" then .error "Failed to fetch content"
    else .ok none
  | .error e => if strIncludes e "429" then .error e else .ok none

/-- Per-source content step of `handleAgentSearch`
(src/app/page.tsx lines 586-625): truthy fetched content is recorded
"fetched"; a falsy body or swallowed failure degrades to the snippet with
status "preview"; the catch re-throws errors whose message contains
"429". -/
def processSourceAgent (article : SearchResult)
    (resp : Except String (Bool × Option String)) :
    Except String (ContentResult × SourceStatus) :=
  match fetchContent resp with
  | .ok data =>
    match data with
    | some c =>
      if !c.isEmpty then .ok (⟨article.url, article.name, c⟩, .fetched)
      else .ok (⟨article.url, article.name, article.snippet⟩, .preview)
    | none => .ok (⟨article.url, article.name, article.snippet⟩, .preview)
  | .error e =>
    if strIncludes e "429" then .error e
    else .ok (⟨article.url, article.name, article.snippet⟩, .preview)

/-- Generated node id of `createNode` (src/app/flow/page.tsx lines
678-717): `` `${type}-${Date.now()}-${Math.random().toString(36).substring(2, 9)}` ``,
with `now` the tick and `rand` the base-36 random suffix drawn. -/
def genNodeId (type : String) (now : Nat) (rand : String) : String :=
  type ++ "-" ++ toString now ++ "-" ++ rand

/-- Id chosen by `createNode`: a truthy caller-supplied `data.id` is used
verbatim, otherwise the generated id. -/
def createNodeId (dataId : Option String) (type : String) (now : Nat) (rand : String) :
    String :=
  match dataId with
  | some s => if s.isEmpty then genNodeId type now rand else s
  | none => genNodeId type now rand

/-- Sample report and flow nodes for the consolidation witness. -/
def sampleReport : Report := ⟨"T", "S", [⟨"sec", "body"⟩], []⟩

/-- Two report-bearing nodes and one empty node. -/
def sampleNodes : List FlowNode :=
  [⟨"n1", some sampleReport⟩, ⟨"n2", some sampleReport⟩, ⟨"n3", none⟩]

/-- Sample selected source without inline content. -/
def sampleArticle : SearchResult := ⟨"a1", "https://a.com/x", "A", "snippet text", 0, none⟩

/-- Left brace character (written via its code point). -/
def lbraceChar : Char := Char.ofNat 123

/-- Right brace character (written via its code point). -/
def rbraceChar : Char := Char.ofNat 125

/-- JSON value as produced by `JSON.parse`.  Numbers keep their source
lexeme: no claim below depends on numeric value semantics beyond
zero-ness, and this avoids modelling double rounding. -/
inductive Json where
  | null
  | bool (b : Bool)
  | num (lexeme : String)
  | str (s : String)
  | arr (elems : List Json)
  | obj (fields : List (String × Json))
deriving Repr


/-- Drop the JSON whitespace characters at the front. -/
def skipWs (cs : List Char) : List Char := cs.dropWhile isJsWs

/-- Hex digit value. -/
def hexVal (c : Char) : Option Nat :=
  if c.isDigit then some (c.toNat - 48)
  else if 'a' ≤ c && c ≤ 'f' then some (c.toNat - 87)
  else if 'A' ≤ c && c ≤ 'F' then some (c.toNat - 55)
  else none

/-- JSON string body (after the opening quote): strict escapes, no raw
control characters; returns the decoded string and the input after the
closing quote. -/
def parseStringBody (acc : List Char) : List Char → Option (String × List Char)
  | [] => none
  | c :: rest =>
    if c == '"' then some (String.mk acc.reverse, rest)
    else if c == '\\' then
      match rest with
      | [] => none
      | e :: rest2 =>
        if e == '"' then parseStringBody ('"' :: acc) rest2
        else if e == '\\' then parseStringBody ('\\' :: acc) rest2
        else if e == '/' then parseStringBody ('/' :: acc) rest2
        else if e == 'b' then parseStringBody ('\x08' :: acc) rest2
        else if e == 'f' then parseStringBody ('\x0c' :: acc) rest2
        else if e == 'n' then parseStringBody ('\n' :: acc) rest2
        else if e == 'r' then parseStringBody ('\r' :: acc) rest2
        else if e == 't' then parseStringBody ('\t' :: acc) rest2
        else if e == 'u' then
          match rest2 with
          | h1 :: h2 :: h3 :: h4 :: rest3 =>
            match hexVal h1, hexVal h2, hexVal h3, hexVal h4 with
            | some a, some b, some c2, some d =>
              parseStringBody (Char.ofNat (((a * 16 + b) * 16 + c2) * 16 + d) :: acc) rest3
            | _, _, _, _ => none
          | _ => none
        else none
    else if c.toNat < 32 then none
    else parseStringBody (c :: acc) rest

/-- Optional fraction part of a JSON number (consumed lexeme, rest). -/
def parseFracPart : List Char → Option (List Char × List Char)
  | '.' :: rest =>
    let ds := rest.takeWhile Char.isDigit
    if ds.isEmpty then none else some ('.' :: ds, rest.drop ds.length)
  | cs => some ([], cs)

/-- Optional exponent part of a JSON number (consumed lexeme, rest). -/
def parseExpPart : List Char → Option (List Char × List Char)
  | c :: rest =>
    if c == 'e' || c == 'E' then
      let (sgn, rest1) := match rest with
        | '+' :: r => ((['+'] : List Char), r)
        | '-' :: r => (['-'], r)
        | _ => ([], rest)
      let ds := rest1.takeWhile Char.isDigit
      if ds.isEmpty then none else some (c :: (sgn ++ ds), rest1.drop ds.length)
    else some ([], c :: rest)
  | [] => some ([], [])

/-- Finish a JSON number after its integer part. -/
def continueNum (acc : List Char) (cs : List Char) : Option (String × List Char) :=
  match parseFracPart cs with
  | none => none
  | some (fr, cs2) =>
    match parseExpPart cs2 with
    | none => none
    | some (ex, cs3) => some (String.mk (acc ++ fr ++ ex), cs3)

/-- JSON number lexeme: `-? (0 | [1-9][0-9]*) frac? exp?`. -/
def parseNumber (cs : List Char) : Option (String × List Char) :=
  let (sign, cs1) := match cs with
    | '-' :: rest => ((['-'] : List Char), rest)
    | _ => ([], cs)
  match cs1 with
  | [] => none
  | c :: rest =>
    if c == '0' then continueNum (sign ++ [c]) rest
    else if c.isDigit then
      let ds := rest.takeWhile Char.isDigit
      continueNum (sign ++ [c] ++ ds) (rest.drop ds.length)
    else none

mutual

/-- Strict JSON value parser (`JSON.parse` grammar), fuelled so that every
definition stays structurally recursive and kernel-evaluable.  The fuel is
generous (`2 * length + 2` at top level) and only bounds nesting. -/
def parseValue : Nat → List Char → Option (Json × List Char)
  | 0, _ => none
  | fuel + 1, cs =>
    if "true".toList.isPrefixOf cs then some (.bool true, cs.drop 4)
    else if "false".toList.isPrefixOf cs then some (.bool false, cs.drop 5)
    else if "null".toList.isPrefixOf cs then some (.null, cs.drop 4)
    else
      match cs with
      | [] => none
      | c :: rest =>
        if c == '"' then
          match parseStringBody [] rest with
          | some (s, rest2) => some (.str s, rest2)
          | none => none
        else if c == lbraceChar then
          match skipWs rest with
          | d :: rest2 =>
            if d == rbraceChar then some (.obj [], rest2)
            else parseObjFields fuel (d :: rest2) []
          | [] => none
        else if c == '[' then
          match skipWs rest with
          | d :: rest2 =>
            if d == ']' then some (.arr [], rest2)
            else parseArrElems fuel (d :: rest2) []
          | [] => none
        else
          match parseNumber cs with
          | some (lex, rest2) => some (.num lex, rest2)
          | none => none

/-- Array elements after `[` (first element not yet parsed). -/
def parseArrElems : Nat → List Char → List Json → Option (Json × List Char)
  | 0, _, _ => none
  | fuel + 1, cs, acc =>
    match parseValue fuel (skipWs cs) with
    | none => none
    | some (v, rest) =>
      match skipWs rest with
      | ',' :: rest2 => parseArrElems fuel rest2 (acc ++ [v])
      | d :: rest2 => if d == ']' then some (.arr (acc ++ [v]), rest2) else none
      | [] => none

/-- Object members after `{` (first member not yet parsed). -/
def parseObjFields : Nat → List Char → List (String × Json) → Option (Json × List Char)
  | 0, _, _ => none
  | fuel + 1, cs, acc =>
    match skipWs cs with
    | c :: rest =>
      if c == '"' then
        match parseStringBody [] rest with
        | some (k, rest2) =>
          match skipWs rest2 with
          | ':' :: rest3 =>
            match parseValue fuel (skipWs rest3) with
            | some (v, rest4) =>
              match skipWs rest4 with
              | ',' :: rest5 => parseObjFields fuel rest5 (acc ++ [(k, v)])
              | d :: rest5 =>
                if d == rbraceChar then some (.obj (acc ++ [(k, v)]), rest5) else none
              | [] => none
            | none => none
          | _ => none
        | none => none
      else none
    | [] => none

end

/-- `JSON.parse`: parse one value surrounded by whitespace; anything left
over is an error. -/
def parseJson (s : String) : Option Json :=
  match parseValue (2 * s.length + 2) (skipWs s.toList) with
  | some (v, rest) => if (skipWs rest).isEmpty then some v else none
  | none => none

/-- Suffix after the whitespace run at the front of `l`, provided that run
contains a newline: the result starts right after the last newline of the
run (models the backtracking of a greedy `\s*` followed by `\n`). -/
def dropThroughLastNl : List Char → Option (List Char)
  | [] => none
  | c :: rest =>
    if isJsWs c then
      match dropThroughLastNl rest with
      | some r => some r
      | none => if c == '\n' then some rest else none
    else none

/-- Regex replacement 1 of `cleanJson`: `/\|\n/g` with `'\n'`. -/
def replacePipeNl : List Char → List Char
  | [] => []
  | '|' :: '\n' :: rest => '\n' :: replacePipeNl rest
  | c :: rest => c :: replacePipeNl rest

/-- Regex replacement 2 of `cleanJson`: `/:\s*[>|](\s*\n|\s*$)/g` with
`': '` (YAML block-scalar indicator after a colon). -/
def replaceYamlInd : Nat → List Char → List Char
  | 0, l => l
  | fuel + 1, [] => []
  | fuel + 1, c :: rest =>
    if c == ':' then
      let w := rest.takeWhile isJsWs
      match rest.drop w.length with
      | d :: rest2 =>
        if d == '>' || d == '|' then
          match dropThroughLastNl rest2 with
          | some r => ':' :: ' ' :: replaceYamlInd fuel r
          | none =>
            if (rest2.dropWhile isJsWs).isEmpty then [':', ' ']
            else c :: replaceYamlInd fuel rest
        else c :: replaceYamlInd fuel rest
      | [] => c :: replaceYamlInd fuel rest
    else c :: replaceYamlInd fuel rest

/-- Regex replacement 3 of `cleanJson`: `/^\s*>/gm` with `''` (leading
block-quote marker at a line start; `\s` may span lines). -/
def replaceLeadingGt : Nat → Bool → List Char → List Char
  | 0, _, l => l
  | fuel + 1, atStart, l =>
    if atStart then
      let w := l.takeWhile isJsWs
      match l.drop w.length with
      | c :: rest2 =>
        if c == '>' then replaceLeadingGt fuel false rest2
        else
          match l with
          | [] => []
          | c0 :: rest0 => c0 :: replaceLeadingGt fuel (c0 == '\n') rest0
      | [] =>
        match l with
        | [] => []
        | c0 :: rest0 => c0 :: replaceLeadingGt fuel (c0 == '\n') rest0
    else
      match l with
      | [] => []
      | c0 :: rest0 => c0 :: replaceLeadingGt fuel (c0 == '\n') rest0

/-- Regex replacement 4 of `cleanJson`: `/,(\s*[}\]])/g` with the group
(drop a trailing comma before a closing brace or bracket). -/
def removeTrailingCommas : Nat → List Char → List Char
  | 0, l => l
  | _ + 1, [] => []
  | fuel + 1, c :: rest =>
    if c == ',' then
      let w := rest.takeWhile isJsWs
      match rest.drop w.length with
      | d :: rest2 =>
        if d == rbraceChar || d == ']' then w ++ [d] ++ removeTrailingCommas fuel rest2
        else c :: removeTrailingCommas fuel rest
      | [] => c :: removeTrailingCommas fuel rest
    else c :: removeTrailingCommas fuel rest

/-- Regex replacement 5 of `cleanJson`: `/\n\s*\n/g` with `'\n'`
(collapse blank runs to a single newline). -/
def collapseNl : Nat → List Char → List Char
  | 0, l => l
  | _ + 1, [] => []
  | fuel + 1, c :: rest =>
    if c == '\n' then
      match dropThroughLastNl rest with
      | some r => '\n' :: collapseNl fuel r
      | none => c :: collapseNl fuel rest
    else c :: collapseNl fuel rest

/-- Regex replacement 6 of `cleanJson`: `/:\s*"[\s\n]+/g` with `': "'`
(strip whitespace right after an opening quote of a value). -/
def fixColonQuoteWs : Nat → List Char → List Char
  | 0, l => l
  | _ + 1, [] => []
  | fuel + 1, c :: rest =>
    if c == ':' then
      let w := rest.takeWhile isJsWs
      match rest.drop w.length with
      | d :: rest2 =>
        if d == '"' then
          let w2 := rest2.takeWhile isJsWs
          if w2.isEmpty then c :: fixColonQuoteWs fuel rest
          else ':' :: ' ' :: '"' :: fixColonQuoteWs fuel (rest2.drop w2.length)
        else c :: fixColonQuoteWs fuel rest
      | [] => c :: fixColonQuoteWs fuel rest
    else c :: fixColonQuoteWs fuel rest

/-- Regex replacement 7 of `cleanJson`: `/[\s\n]+"/g` with `'"'`
(strip whitespace right before a quote). -/
def stripWsBeforeQuote : Nat → List Char → List Char
  | 0, l => l
  | _ + 1, [] => []
  | fuel + 1, c :: rest =>
    if isJsWs c then
      let w := rest.takeWhile isJsWs
      match rest.drop w.length with
      | d :: rest2 =>
        if d == '"' then '"' :: stripWsBeforeQuote fuel rest2
        else c :: stripWsBeforeQuote fuel rest
      | [] => c :: stripWsBeforeQuote fuel rest
    else c :: stripWsBeforeQuote fuel rest

/-- `cleanJson` of `extractAndParseJSON` (src/lib/utils.ts lines 9-26):
the seven chained regex replacements.  Each pass advances at least one
character per step, so `length + 1` fuel is exact. -/
def cleanJson (s : String) : String :=
  let l1 := replacePipeNl s.toList
  let l2 := replaceYamlInd (l1.length + 1) l1
  let l3 := replaceLeadingGt (l2.length + 1) true l2
  let l4 := removeTrailingCommas (l3.length + 1) l3
  let l5 := collapseNl (l4.length + 1) l4
  let l6 := fixColonQuoteWs (l5.length + 1) l5
  String.mk (stripWsBeforeQuote (l6.length + 1) l6)

/-- Split `l` just after the first occurrence of `pat`: returns the part
before the occurrence and the part after it. -/
def splitAtSub (pat : List Char) : List Char → Option (List Char × List Char)
  | [] => if pat.isEmpty then some ([], []) else none
  | c :: rest =>
    if pat.isPrefixOf (c :: rest) then some ([], (c :: rest).drop pat.length)
    else
      match splitAtSub pat rest with
      | some (pre, post) => some (c :: pre, post)
      | none => none

/-- Group captured by the code-block regex
`` /```(?:json)?\s*([\s\S]*?)```/ `` of src/lib/utils.ts: content between
the first fence (after an optional `json` tag and greedy whitespace) and
the next closing fence. -/
def codeBlockGroup (s : String) : Option String :=
  match afterSub "```".toList s.toList with
  | none => none
  | some afterOpen =>
    let afterJson := if "json".toList.isPrefixOf afterOpen then afterOpen.drop 4 else afterOpen
    let content := afterJson.dropWhile isJsWs
    match splitAtSub "```".toList content with
    | some (grp, _) => some (String.mk grp)
    | none => none

/-- Second decode attempt of `extractAndParseJSON`: parse the cleaned
code-block group, when a code block is present. -/
def attempt2 (response : String) : Option Json :=
  match codeBlockGroup response with
  | some g => parseJson (cleanJson g)
  | none => none

/-- Third decode attempt of `extractAndParseJSON` (src/lib/utils.ts lines
66-120): scan for balanced brace regions, ignoring braces inside quoted
strings, and return the parse of the first region that decodes after
cleanup; on a parse failure the scan continues with later regions. -/
def scan3 (full : List Char) : List Char → Nat → Bool → Bool → Bool → Int → Nat → Option Json
  | [], _, _, _, _, _, _ => none
  | c :: rest, i, inString, escapeNext, foundStart, count, startIdx =>
    if c == '"' && !escapeNext then
      scan3 full rest (i + 1) (!inString) false foundStart count startIdx
    else if c == '\\' && !escapeNext then
      scan3 full rest (i + 1) inString true foundStart count startIdx
    else if !inString && c == lbraceChar then
      if count == 0 then scan3 full rest (i + 1) inString false true (count + 1) i
      else scan3 full rest (i + 1) inString false foundStart (count + 1) startIdx
    else if !inString && c == rbraceChar then
      if count - 1 == 0 && foundStart then
        match parseJson (cleanJson (String.mk ((full.drop startIdx).take (i + 1 - startIdx)))) with
        | some v => some v
        | none => scan3 full rest (i + 1) inString false false (count - 1) startIdx
      else scan3 full rest (i + 1) inString false foundStart (count - 1) startIdx
    else
      scan3 full rest (i + 1) inString false foundStart count startIdx

/-- Third decode attempt, started on the whole response. -/
def attempt3 (response : String) : Option Json :=
  scan3 response.toList response.toList 0 false false false 0 0

/-- `extractAndParseJSON` of src/lib/utils.ts lines 8-124: strict parse of
the whole payload, then the cleaned code-block attempt, then the balanced
brace scan; the named error when all fail. -/
def extractAndParseJSON (response : String) : Except String Json :=
  match parseJson response with
  | some v => .ok v
  | none =>
    match attempt2 response with
    | some v => .ok v
    | none =>
      match attempt3 response with
      | some v => .ok v
      | none => .error "No valid JSON found in response"

/-- Modelled from the spec: the claim reads strategy 3 as "scanning for
the first balanced brace-delimited region (string-aware) and parsing
that"; this returns that first balanced region, for comparison with the
source scan which keeps trying later regions. -/
def scanFirstRegion (full : List Char) :
    List Char → Nat → Bool → Bool → Bool → Int → Nat → Option String
  | [], _, _, _, _, _, _ => none
  | c :: rest, i, inString, escapeNext, foundStart, count, startIdx =>
    if c == '"' && !escapeNext then
      scanFirstRegion full rest (i + 1) (!inString) false foundStart count startIdx
    else if c == '\\' && !escapeNext then
      scanFirstRegion full rest (i + 1) inString true foundStart count startIdx
    else if !inString && c == lbraceChar then
      if count == 0 then scanFirstRegion full rest (i + 1) inString false true (count + 1) i
      else scanFirstRegion full rest (i + 1) inString false foundStart (count + 1) startIdx
    else if !inString && c == rbraceChar then
      if count - 1 == 0 && foundStart then
        some (String.mk ((full.drop startIdx).take (i + 1 - startIdx)))
      else scanFirstRegion full rest (i + 1) inString false foundStart (count - 1) startIdx
    else
      scanFirstRegion full rest (i + 1) inString false foundStart count startIdx

/-- Modelled from the spec: first balanced brace region of a response. -/
def firstBalancedRegion (s : String) : Option String :=
  scanFirstRegion s.toList s.toList 0 false false false 0 0

/-- JavaScript member access `j.k` on a parsed JSON value: `none` models
`undefined` (non-objects have no members); duplicate keys resolve to the
last occurrence, as in `JSON.parse`. -/
def jsGetField (j : Json) (k : String) : Option Json :=
  match j with
  | .obj kvs => ((kvs.filter (fun kv => kv.1 == k)).getLast?).map (fun kv => kv.2)
  | _ => none

/-- Strict equality `p.id === cid` between a parsed JSON member and a
string: true exactly when the member is a string with the same content. -/
def idMatches (p : Json) (cid : String) : Bool :=
  match jsGetField p "id" with
  | some (.str s) => s == cid
  | _ => false

/-- JavaScript `String.prototype.split` at one separator character. -/
def splitCharList (sep : Char) : List Char → List (List Char)
  | [] => [[]]
  | c :: rest =>
    let r := splitCharList sep rest
    if c == sep then [] :: r
    else
      match r with
      | h :: t => (c :: h) :: t
      | [] => [[c]]

/-- JavaScript `String.prototype.trim` (ASCII whitespace). -/
def trimChars (l : List Char) : List Char :=
  ((l.dropWhile isJsWs).reverse.dropWhile isJsWs).reverse

/-- Line-based fallback of the Follow-up Generator
(src/app/api/generate-question/route.ts): split the raw response on
newlines, trim, keep non-empty lines without braces, take the first 3. -/
def fallbackLines (response : String) : List String :=
  (((splitCharList '\n' response.toList).map (fun l => String.mk (trimChars l))).filter
    (fun t => t.length > 0 && !(strIncludes t "\x7b") && !(strIncludes t "\x7d"))).take 3

/-- Structured decode of the Follow-up Generator: strict `JSON.parse`,
then `searchTerms` must be an array of length exactly 3 (the source checks
only `Array.isArray` and the length). -/
def decodeSearchTerms (response : String) : Option (List Json) :=
  match parseJson response with
  | none => none
  | some j =>
    match jsGetField j "searchTerms" with
    | some (.arr ts) => if ts.length == 3 then some ts else none
    | _ => none

/-- Follow-up Generator result on a model response: the decoded
`searchTerms` when structured decoding succeeds, otherwise the line-based
fallback (as JSON strings, mirroring the route's response payload). -/
def followUpTerms (response : String) : List Json :=
  match decodeSearchTerms response with
  | some ts => ts
  | none => (fallbackLines response).map Json.str

/-- Zero test on a JSON number lexeme (all mantissa digits are 0). -/
def isZeroLexeme (lex : String) : Bool :=
  let cs := match lex.toList with
    | '-' :: r => r
    | r => r
  let mantissa := cs.takeWhile (fun c => !(c == 'e' || c == 'E'))
  (mantissa.filter (fun c => !(c == '.'))).all (fun c => c == '0')

/-- JavaScript truthiness of a parsed JSON value (`false`, `0`, `""` and
`null` are falsy).  Denormal underflow of tiny non-zero exponents to the
double 0 is not modelled. -/
def jsTruthy : Json → Bool
  | .null => false
  | .bool b => b
  | .num lex => !(isZeroLexeme lex)
  | .str s => !s.isEmpty
  | .arr _ => true
  | .obj _ => true

/-- Validation applied to each imported project: `id`, `name`,
`createdAt` and `updatedAt` must all be truthy (member access on a
non-object yields `undefined`, which is falsy). -/
def validProject (j : Json) : Bool :=
  ["id", "name", "createdAt", "updatedAt"].all (fun k =>
    match jsGetField j k with
    | some v => jsTruthy v
    | none => false)

/-- The two localStorage keys touched by `importFlowProjects`: the raw
project-list text and the current-project pointer. -/
structure FlowStorage where
  projects : Option String
  current : Option String
deriving Repr, DecidableEq

/-- `importFlowProjects` of the localStorage utilities: parse, require an
array of valid projects, store the raw text only after validation, then
drop the current-project pointer when it is truthy and no imported project
carries its id (`p.id === currentProjectId`). -/
def importFlowProjects (jsonText : String) (st : FlowStorage) : Bool × FlowStorage :=
  match parseJson jsonText with
  | none => (false, st)
  | some j =>
    match j with
    | .arr projects =>
      if projects.all validProject then
        let st1 : FlowStorage := ⟨some jsonText, st.current⟩
        let st2 : FlowStorage :=
          match st1.current with
          | some cid =>
            if cid.isEmpty then st1
            else if projects.any (fun p => idMatches p cid) then st1
            else ⟨st1.projects, none⟩
          | none => st1
        (true, st2)
      else (false, st)
    | _ => (false, st)

/-- Lowercasing as used for `query.toLowerCase()` comparisons. -/
def strToLower (s : String) : String := String.mk (s.toList.map Char.toLower)

/-- Response shape of the Query Optimizer route. -/
structure OptimizeResponse where
  query : String
  optimizedPrompt : String
  explanation : String
  suggestedStructure : List String
deriving Repr, DecidableEq

/-- Canned optimizer response for the topic `test`
(src/app/api/optimize-research/route.ts). -/
def cannedOptimize : OptimizeResponse :=
  ⟨"test",
   "Analyze and compare different research methodologies, focusing on scientific rigor, peer review processes, and validation techniques",
   "Test optimization strategy",
   ["Test Structure 1", "Test Structure 2", "Test Structure 3"]⟩

/-- Normalized `webPages.value` entry returned by the search route. -/
structure BingWebPage where
  id : String
  url : String
  name : String
  snippet : String
deriving Repr, DecidableEq

/-- Canned search results for test queries (src/app/api/search/route.ts):
three results, all on the hostname example.com. -/
def cannedSearchResults : List BingWebPage :=
  [ ⟨"test-1", "https://example.com/test-1", "Test Result 1",
     "This is a test search result for testing purposes. It contains some sample text about research and analysis."⟩,
    ⟨"test-2", "https://example.com/test-2", "Test Result 2",
     "Another test result with different content. This one discusses methodology and data collection."⟩,
    ⟨"test-3", "https://example.com/test-3", "Test Result 3",
     "A third test result focusing on academic research and scientific papers."⟩ ]

/-- Input row sent to the ranking route. -/
structure RankInput where
  title : String
  snippet : String
  url : String
deriving Repr, DecidableEq

/-- Per-URL ranking returned by the ranking route. -/
structure Ranking where
  url : String
  score : ℚ
  reasoning : String
deriving Repr, DecidableEq

/-- Query Optimizer route: the test topic short-circuits to the canned
response before any Model Service call (`remote` is the would-be remote
outcome; the boolean records whether it was consulted). -/
def optimizeRoute (prompt : String) (remote : Option OptimizeResponse) :
    Option OptimizeResponse × Bool :=
  if strToLower prompt == "test" then (some cannedOptimize, false) else (remote, true)

/-- Search route: the literal query `test` (case-insensitive) or the test
flag short-circuits to the canned results before any Search Service
call. -/
def searchRoute (query : String) (isTestQuery : Bool)
    (remote : Option (List BingWebPage)) : Option (List BingWebPage) × Bool :=
  if strToLower query == "test" || isTestQuery then (some cannedSearchResults, false)
  else (remote, true)

/-- Ranking route (src/app/api/analyze-results/route.ts): the test flag,
or any result whose URL contains `example.com/test`, short-circuits to the
canned ranking scoring the first result 1 and the rest 0.5. -/
def analyzeRoute (prompt : String) (results : List RankInput) (isTestQuery : Bool)
    (remote : Option (List Ranking)) : Option (List Ranking) × Bool :=
  if isTestQuery || results.any (fun r => strIncludes r.url "example.com/test") then
    (some (results.enum.map (fun p =>
      ⟨p.2.url, if p.1 == 0 then (1 : ℚ) else half, "Test ranking result"⟩)), false)
  else (remote, true)

/-- Stable insertion of a result into a descending-score list (a new
element goes after existing elements of equal score). -/
def insertDesc (r : SearchResult) : List SearchResult → List SearchResult
  | [] => [r]
  | x :: xs => if decide (x.score < r.score) then r :: x :: xs else x :: insertDesc r xs

/-- Stable descending sort by score; `Array.prototype.sort` with
comparator `(a, b) => (b.score || 0) - (a.score || 0)` is specified
stable, so any stable algorithm models it. -/
def stableSortDesc (l : List SearchResult) : List SearchResult :=
  l.foldl (fun acc r => insertDesc r acc) []

/-- Steps 1-3 plus diversity selection of `handleAgentSearch`
(src/app/page.tsx) with each route's remote collaborator made explicit:
optimize the topic, search with the optimized query, rank, attach scores
(`rankings.find(...)?.score || 0`), sort descending, reject all-zero
rankings, then run the selection stage.  The boolean records whether any
remote service was consulted. -/
def agentPipeline (topic : String) (ts : Nat) (optRemote : Option OptimizeResponse)
    (searchRemote : Option (List BingWebPage)) (analyzeRemote : Option (List Ranking)) :
    Except String (List SearchResult) × Bool :=
  match optimizeRoute topic optRemote with
  | (none, rc1) => (.error "Failed to optimize research", rc1)
  | (some opt, rc1) =>
    match searchRoute opt.query (strToLower opt.query == "test") searchRemote with
    | (none, rc2) => (.error "Search failed", rc1 || rc2)
    | (some webPages, rc2) =>
      if webPages.isEmpty then
        (.error "No search results found. Please try a different query.", rc1 || rc2)
      else
        let allResults := webPages.enum.map (fun p =>
          ({ id := "search-" ++ toString ts ++ "-" ++ toString p.1 ++ "-" ++ p.2.url,
             url := p.2.url, name := p.2.name, snippet := p.2.snippet,
             score := 0, content := none } : SearchResult))
        match analyzeRoute opt.optimizedPrompt
            (allResults.map (fun r => ⟨r.name, r.snippet, r.url⟩))
            (strToLower opt.query == "test") analyzeRemote with
        | (none, rc3) => (.error "Failed to analyze results", rc1 || rc2 || rc3)
        | (some rankings, rc3) =>
          let scored := allResults.map (fun r =>
            { r with score := ((rankings.find? (fun rk => rk.url == r.url)).map Ranking.score).getD 0 })
          let ranked := stableSortDesc scored
          if ranked.all (fun r => decide (r.score = 0)) then
            (.error "No relevant results found. Please try a different query.", rc1 || rc2 || rc3)
          else
            (selectionStage maxSelectableResults ranked, rc1 || rc2 || rc3)

/-- Valid single-project import payload used by the import witness. -/
def sampleProjectsJson : String :=
  "[\x7b\"id\":\"p1\",\"name\":\"N\",\"createdAt\":\"c\",\"updatedAt\":\"u\"\x7d]"

-- THEOREMS BELOW

theorem half_eq : half = (1 : ℚ)/2 := by
  rw [half, Rat.mk'_eq_divInt, Rat.divInt_eq_div]
  norm_num

theorem diversityGo_sublist (K : Nat) :
    ∀ (l : List SearchResult) (urls : List String), (diversityGo K urls l).Sublist l := by
  intro l
  induction l with
  | nil => intro urls; simp [diversityGo]
  | cons r rest ih =>
    intro urls
    simp only [diversityGo]
    split_ifs with h1 h2
    · exact (ih urls).cons r
    · exact (ih (urls ++ [r.url])).cons₂ r
    · exact (ih urls).cons r

theorem diversityGo_length (K : Nat) :
    ∀ (l : List SearchResult) (urls : List String),
      (diversityGo K urls l).length ≤ K - urls.length := by
  intro l
  induction l with
  | nil => intro urls; simp [diversityGo]
  | cons r rest ih =>
    intro urls
    simp only [diversityGo]
    split_ifs with h1 h2
    · exact le_trans (ih urls) (by omega)
    · have h := ih (urls ++ [r.url])
      simp only [List.length_append, List.length_cons, List.length_singleton] at h ⊢
      omega
    · exact ih urls

theorem diversityGo_score (K : Nat) :
    ∀ (l : List SearchResult) (urls : List String) (x : SearchResult),
      x ∈ diversityGo K urls l → half < x.score := by
  intro l
  induction l with
  | nil => intro urls x hx; simp [diversityGo] at hx
  | cons r rest ih =>
    intro urls x hx
    simp only [diversityGo] at hx
    split_ifs at hx with h1 h2
    · exact ih urls x hx
    · rcases List.mem_cons.mp hx with hx | hx
      · subst hx
        simp only [Bool.and_eq_true, decide_eq_true_eq] at h2
        exact h2.2
      · exact ih (urls ++ [r.url]) x hx
    · exact ih urls x hx

theorem diversityGo_fresh (K : Nat) :
    ∀ (l : List SearchResult) (urls : List String) (x : SearchResult),
      x ∈ diversityGo K urls l → ∀ u ∈ urls, hostname u ≠ hostname x.url := by
  intro l
  induction l with
  | nil => intro urls x hx; simp [diversityGo] at hx
  | cons r rest ih =>
    intro urls x hx
    simp only [diversityGo] at hx
    split_ifs at hx with h1 h2
    · exact ih urls x hx
    · rcases List.mem_cons.mp hx with hx | hx
      · subst hx
        intro u hu
        simp only [Bool.and_eq_true, Bool.not_eq_true', List.any_eq_false] at h2
        have := h2.1.1 u hu
        simpa using this
      · intro u hu
        exact ih (urls ++ [r.url]) x hx u (List.mem_append_left _ hu)
    · exact ih urls x hx

theorem diversityGo_pairwise (K : Nat) :
    ∀ (l : List SearchResult) (urls : List String),
      (diversityGo K urls l).Pairwise (fun a b => hostname a.url ≠ hostname b.url) := by
  intro l
  induction l with
  | nil => intro urls; simp [diversityGo]
  | cons r rest ih =>
    intro urls
    simp only [diversityGo]
    split_ifs with h1 h2
    · exact ih urls
    · refine List.Pairwise.cons ?_ (ih (urls ++ [r.url]))
      intro b hb
      exact diversityGo_fresh K rest (urls ++ [r.url]) b hb r.url
        (List.mem_append_right _ (List.mem_singleton_self _))
    · exact ih urls

/-- C1: the Diversity Selector returns at most `K` results, no two of them
share a hostname, every returned result has score strictly above 0.5 (so a
result scoring exactly 0.5 is dropped), the output is a sublist of the
input, and descending-score order is preserved. -/
theorem diversity_selector_invariants (K : Nat) (rankedResults : List SearchResult) :
    (diversitySelect K rankedResults).length ≤ K
  ∧ (diversitySelect K rankedResults).Pairwise (fun a b => hostname a.url ≠ hostname b.url)
  ∧ (∀ r ∈ diversitySelect K rankedResults, (1 : ℚ)/2 < r.score)
  ∧ (∀ r, r.score = (1 : ℚ)/2 → r ∉ diversitySelect K rankedResults)
  ∧ (diversitySelect K rankedResults).Sublist rankedResults
  ∧ (rankedResults.Pairwise (fun a b => b.score ≤ a.score) →
      (diversitySelect K rankedResults).Pairwise (fun a b => b.score ≤ a.score)) := by
  refine ⟨?_, ?_, ?_, ?_, ?_, ?_⟩
  · simpa using diversityGo_length K rankedResults []
  · exact diversityGo_pairwise K rankedResults []
  · intro r hr
    have h := diversityGo_score K rankedResults [] r hr
    rwa [half_eq] at h
  · intro r hscore hmem
    have h := diversityGo_score K rankedResults [] r hmem
    rw [half_eq, hscore] at h
    exact lt_irrefl _ h
  · exact diversityGo_sublist K rankedResults []
  · exact fun hs => List.Pairwise.sublist (diversityGo_sublist K rankedResults []) hs

theorem diversity_selector_invariants_witness :
    (diversitySelect 3 sampleRanked).Pairwise (fun a b => b.score ≤ a.score)
  ∧ (diversitySelect 3 sampleRanked).length ≤ 3 :=
  ⟨(diversity_selector_invariants 3 sampleRanked).2.2.2.2.2 (by decide),
   (diversity_selector_invariants 3 sampleRanked).1⟩

theorem diversity_scenario_sample :
    (diversitySelect 3 sampleRanked).map SearchResult.id = ["1", "3"] := by decide

/-- C8: when the diversity filter accepts nothing, the selection stage
throws the named failure instead of handing an empty selection to the
report stage; symmetrically, a successful selection stage never returns an
empty list. -/
theorem selection_empty_named_failure (K : Nat) (rankedResults : List SearchResult) :
    (diversitySelect K rankedResults = [] →
      selectionStage K rankedResults =
        .error "Could not find enough diverse, high-quality sources. Please try a different query.")
  ∧ (∀ sel, selectionStage K rankedResults = .ok sel → sel ≠ []) := by
  constructor
  · intro h
    simp [selectionStage, h]
  · intro sel h hnil
    by_cases hl : (diversitySelect K rankedResults).length = 0
    · simp [selectionStage, hl] at h
    · simp only [selectionStage, hl, if_false] at h
      rw [Except.ok.injEq] at h
      subst h
      simp [hnil] at hl

theorem selection_empty_named_failure_witness :
    selectionStage 3 sampleLow =
      .error "Could not find enough diverse, high-quality sources. Please try a different query." :=
  (selection_empty_named_failure 3 sampleLow).1 (by decide)

theorem retryLoop_ok {α : Type} (ops : Nat → Except String α) (errs : Nat → String)
    (maxRetries baseDelay : Nat) (v : α) (n : Nat) (hn : n < maxRetries)
    (hfail : ∀ j, j < n → ops j = .error (errs j) ∧ strIncludes (errs j) "429" = true)
    (hok : ops n = .ok v) :
    ∀ (k i : Nat) (delays : List Nat) (last : Option String), i + k = n →
    retryLoop ops maxRetries baseDelay i delays last =
      ⟨.ok v, n + 1, delays ++ (List.range' i k).map (fun t => baseDelay * 2 ^ t)⟩ := by
  intro k
  induction k with
  | zero =>
    intro i delays last hik
    have hi : i = n := by omega
    subst hi
    rw [retryLoop]
    simp [hn, hok]
  | succ k ih =>
    intro i delays last hik
    have hi : i < n := by omega
    have hfi := hfail i hi
    rw [retryLoop]
    have him : i < maxRetries := by omega
    simp only [him, if_true, hfi.1, hfi.2, if_pos]
    rw [ih (i + 1) (delays ++ [baseDelay * 2 ^ i]) (some (errs i)) (by omega)]
    simp [List.range'_succ, List.append_assoc]

theorem retryLoop_allfail {α : Type} (ops : Nat → Except String α) (errs : Nat → String)
    (maxRetries baseDelay : Nat)
    (hfail : ∀ j, j < maxRetries → ops j = .error (errs j) ∧ strIncludes (errs j) "429" = true) :
    ∀ (k i : Nat) (delays : List Nat) (last : Option String), i + k + 1 = maxRetries →
    retryLoop ops maxRetries baseDelay i delays last =
      ⟨.error (errs (maxRetries - 1)), maxRetries,
        delays ++ (List.range' i (k + 1)).map (fun t => baseDelay * 2 ^ t)⟩ := by
  intro k
  induction k with
  | zero =>
    intro i delays last hik
    have h2 : maxRetries = i + 1 := by omega
    subst h2
    have him : i < i + 1 := by omega
    have hfi := hfail i him
    rw [retryLoop]
    simp only [him, if_true, hfi.1, hfi.2, if_pos]
    rw [retryLoop]
    have hnext : ¬ (i + 1 < i + 1) := by omega
    simp [hnext, List.range'_succ]
  | succ k ih =>
    intro i delays last hik
    have him : i < maxRetries := by omega
    have hfi := hfail i him
    rw [retryLoop]
    simp only [him, if_true, hfi.1, hfi.2, if_pos]
    rw [ih (i + 1) (delays ++ [baseDelay * 2 ^ i]) (some (errs i)) (by omega)]
    simp [List.range'_succ, List.append_assoc]

theorem retryLoop_nonratelimit {α : Type} (ops : Nat → Except String α) (errs : Nat → String)
    (maxRetries baseDelay : Nat) (m : Nat) (e : String) (hm : m < maxRetries)
    (hfail : ∀ j, j < m → ops j = .error (errs j) ∧ strIncludes (errs j) "429" = true)
    (herr : ops m = .error e) (h429 : strIncludes e "429" = false) :
    ∀ (k i : Nat) (delays : List Nat) (last : Option String), i + k = m →
    retryLoop ops maxRetries baseDelay i delays last =
      ⟨.error e, m + 1, delays ++ (List.range' i k).map (fun t => baseDelay * 2 ^ t)⟩ := by
  intro k
  induction k with
  | zero =>
    intro i delays last hik
    have hi : i = m := by omega
    subst hi
    rw [retryLoop]
    simp [hm, herr, h429]
  | succ k ih =>
    intro i delays last hik
    have hi : i < m := by omega
    have hfi := hfail i hi
    rw [retryLoop]
    have him : i < maxRetries := by omega
    simp only [him, if_true, hfi.1, hfi.2, if_pos]
    rw [ih (i + 1) (delays ++ [baseDelay * 2 ^ i]) (some (errs i)) (by omega)]
    simp [List.range'_succ, List.append_assoc]

/-- C2: contract of `retryWithBackoff`.  If the operation rate-limits
(message containing "429") on the first `n < maxRetries` attempts and then
succeeds, it is invoked exactly `n+1` times, the sleeps are
`baseDelay * 2^i` for `i < n` (strictly increasing when `baseDelay > 0`),
and the success value is returned.  If every attempt rate-limits, the
operation is invoked exactly `maxRetries` times and the last error is
thrown.  A non-rate-limit error on the first attempt propagates after a
single invocation with no sleeps, and in general a non-rate-limit error
stops the loop immediately with no further invocation. -/
theorem retry_with_backoff_contract {α : Type} (ops : Nat → Except String α)
    (errs : Nat → String) (maxRetries baseDelay : Nat) :
    (∀ n v, n < maxRetries →
       (∀ j, j < n → ops j = .error (errs j) ∧ strIncludes (errs j) "429" = true) →
       ops n = .ok v →
       retryWithBackoff ops maxRetries baseDelay =
         ⟨.ok v, n + 1, (List.range n).map (fun t => baseDelay * 2 ^ t)⟩
       ∧ (0 < baseDelay →
           ((List.range n).map (fun t => baseDelay * 2 ^ t)).Pairwise (· < ·)))
  ∧ ((∀ j, j < maxRetries → ops j = .error (errs j) ∧ strIncludes (errs j) "429" = true) →
       0 < maxRetries →
       (retryWithBackoff ops maxRetries baseDelay).result = .error (errs (maxRetries - 1))
       ∧ (retryWithBackoff ops maxRetries baseDelay).calls = maxRetries)
  ∧ (∀ e, ops 0 = .error e → strIncludes e "429" = false → 0 < maxRetries →
       retryWithBackoff ops maxRetries baseDelay = ⟨.error e, 1, []⟩)
  ∧ (∀ m e, m < maxRetries →
       (∀ j, j < m → ops j = .error (errs j) ∧ strIncludes (errs j) "429" = true) →
       ops m = .error e → strIncludes e "429" = false →
       (retryWithBackoff ops maxRetries baseDelay).result = .error e
       ∧ (retryWithBackoff ops maxRetries baseDelay).calls = m + 1) := by
  refine ⟨?_, ?_, ?_, ?_⟩
  · intro n v hn hfail hok
    constructor
    · have h := retryLoop_ok ops errs maxRetries baseDelay v n hn hfail hok n 0 [] none (by omega)
      rw [retryWithBackoff, h]
      simp [List.range_eq_range']
    · intro hb
      refine List.Pairwise.map _ ?_ (List.pairwise_lt_range n)
      intro a b hab
      exact mul_lt_mul_of_pos_left (Nat.pow_lt_pow_right one_lt_two hab) hb
  · intro hfail hpos
    have h := retryLoop_allfail ops errs maxRetries baseDelay hfail (maxRetries - 1) 0 [] none
      (by omega)
    rw [retryWithBackoff, h]
    exact ⟨rfl, rfl⟩
  · intro e h0 h429 hpos
    rw [retryWithBackoff, retryLoop]
    simp [hpos, h0, h429]
  · intro m e hm hfail herr h429
    have h := retryLoop_nonratelimit ops errs maxRetries baseDelay m e hm hfail herr h429
      m 0 [] none (by omega)
    rw [retryWithBackoff, h]
    exact ⟨rfl, rfl⟩

theorem retry_with_backoff_contract_witness :
    retryWithBackoff witnessOps 3 1000 = ⟨.ok 7, 2, [1000]⟩ :=
  ((retry_with_backoff_contract witnessOps (fun _ => "error 429") 3 1000).1 1 7
    (by omega)
    (fun j hj => by
      have hj0 : j = 0 := by omega
      subst hj0
      exact ⟨rfl, by decide⟩)
    rfl).1

theorem length_filterMap_of_isSome {α β : Type} (f : α → Option β) :
    ∀ l : List α, (∀ x ∈ l, (f x).isSome) → (l.filterMap f).length = l.length := by
  intro l
  induction l with
  | nil => intro _; simp
  | cons a rest ih =>
    intro h
    have ha := h a (List.mem_cons_self a rest)
    rcases hf : f a with _ | b
    · rw [hf] at ha; simp at ha
    · simp only [List.filterMap_cons, hf, List.length_cons]
      rw [ih (fun x hx => h x (List.mem_cons_of_mem a hx))]

/-- C3: consolidation rejects fewer than 2 selected ids, and fewer than 2
report-bearing selected nodes, before the Model Service request is made;
on success the consolidation edges target the new node, originate from the
selected ids, and number exactly the distinct selected report ids. -/
theorem consolidate_reports_contract (selectedReports : List String) (nodes : List FlowNode)
    (remote : Option Report) (newNodeId : String) :
    (selectedReports.length < 2 →
       consolidateReports selectedReports nodes remote newNodeId = ⟨false, false, []⟩)
  ∧ ((nodes.filter (fun n => selectedReports.contains n.id && n.report.isSome)).length < 2 →
       (consolidateReports selectedReports nodes remote newNodeId).remoteCalled = false
       ∧ (consolidateReports selectedReports nodes remote newNodeId).success = false)
  ∧ (selectedReports.Nodup →
       (consolidateReports selectedReports nodes remote newNodeId).success = true →
       (consolidateReports selectedReports nodes remote newNodeId).edges.length
         = selectedReports.dedup.length)
  ∧ (∀ e ∈ (consolidateReports selectedReports nodes remote newNodeId).edges,
       e.2 = newNodeId ∧ e.1 ∈ selectedReports) := by
  have hlen : ((nodes.filter (fun n => selectedReports.contains n.id && n.report.isSome)).filterMap
      (fun n => n.report)).length
      = (nodes.filter (fun n => selectedReports.contains n.id && n.report.isSome)).length := by
    refine length_filterMap_of_isSome _ _ ?_
    intro x hx
    have := List.of_mem_filter hx
    simp only [Bool.and_eq_true] at this
    exact this.2
  refine ⟨?_, ?_, ?_, ?_⟩
  · intro h
    unfold consolidateReports
    rw [if_pos h]
  · intro h
    by_cases h1 : selectedReports.length < 2
    · unfold consolidateReports
      rw [if_pos h1]
      exact ⟨rfl, rfl⟩
    · have h2 : ((nodes.filter (fun n => selectedReports.contains n.id && n.report.isSome)).filterMap
          (fun n => n.report)).length < 2 := by rw [hlen]; exact h
      unfold consolidateReports
      rw [if_neg h1, if_pos h2]
      exact ⟨rfl, rfl⟩
  · intro hnd hsucc
    rw [List.dedup_eq_self.mpr hnd]
    unfold consolidateReports at hsucc ⊢
    by_cases h1 : selectedReports.length < 2
    · rw [if_pos h1] at hsucc
      exact absurd hsucc (by simp)
    · rw [if_neg h1] at hsucc ⊢
      by_cases h2 : ((nodes.filter (fun n => selectedReports.contains n.id && n.report.isSome)).filterMap
          (fun n => n.report)).length < 2
      · rw [if_pos h2] at hsucc
        exact absurd hsucc (by simp)
      · rw [if_neg h2] at hsucc ⊢
        cases remote with
        | none => exact absurd hsucc (by simp)
        | some rep => simp
  · intro e he
    unfold consolidateReports at he
    by_cases h1 : selectedReports.length < 2
    · rw [if_pos h1] at he
      simp at he
    · rw [if_neg h1] at he
      by_cases h2 : ((nodes.filter (fun n => selectedReports.contains n.id && n.report.isSome)).filterMap
          (fun n => n.report)).length < 2
      · rw [if_pos h2] at he
        simp at he
      · rw [if_neg h2] at he
        cases remote with
        | none => simp at he
        | some rep =>
          simp only [List.mem_map] at he
          rcases he with ⟨rid, hrid, hmk⟩
          rw [← hmk]
          exact ⟨rfl, hrid⟩

theorem consolidate_reports_contract_witness :
    (consolidateReports ["n1", "n2"] sampleNodes (some sampleReport) "c9x").edges.length
      = (["n1", "n2"] : List String).dedup.length :=
  (consolidate_reports_contract ["n1", "n2"] sampleNodes (some sampleReport) "c9x").2.2.1
    (by decide) (by decide)

/-- C4 counterexample: the claim says a failure of the remote content
fetch never raises to the caller, but in `handleAgentSearch` a fetch
rejection whose message contains "429" is re-thrown out of the per-source
step (aborting the batch). -/
theorem content_fetch_429_raises :
    processSourceAgent sampleArticle (.error "HTTP error 429") = .error "HTTP error 429" := rfl

/-- C4 (amended): in the flow page, inline content skips the fetch and any
fetch failure degrades to the snippet without raising; in the agent page a
failed fetch degrades to the snippet with status "preview" and the step
only raises when the failure message contains the rate-limit marker
"429"; batch processing is an independent map over the sources. -/
theorem content_fetch_fallback (result article : SearchResult)
    (outcome : Except String (Option String)) (resp : Except String (Bool × Option String)) :
    (truthyStr result.content = true →
       processSourceFlow result outcome = ⟨result.url, result.name, result.content.getD ""⟩)
  ∧ (truthyStr result.content = false →
       ∀ e, processSourceFlow result (.error e) = ⟨result.url, result.name, result.snippet⟩)
  ∧ (∀ e, resp = .error e → strIncludes e "429" = false →
       processSourceAgent article resp =
         .ok (⟨article.url, article.name, article.snippet⟩, .preview))
  ∧ (∀ b d, resp = .ok (b, d) → ∃ out, processSourceAgent article resp = .ok out)
  ∧ (∀ e, processSourceAgent article resp = .error e →
       resp = .error e ∧ strIncludes e "429" = true)
  ∧ (∀ results oracle, batchFlow results oracle
       = results.map (fun r => processSourceFlow r (oracle r))) := by
  have hconst : strIncludes "Failed to fetch content" "429" = false := by decide
  refine ⟨?_, ?_, ?_, ?_, ?_, ?_⟩
  · intro h
    simp [processSourceFlow, h]
  · intro h e
    simp [processSourceFlow, h]
  · intro e he h429
    subst he
    simp [processSourceAgent, fetchContent, h429]
  · intro b d hre
    subst hre
    rcases b with _ | _
    · exact ⟨(⟨article.url, article.name, article.snippet⟩, .preview),
        by simp [processSourceAgent, fetchContent, hconst]⟩
    · rcases d with _ | c
      · exact ⟨(⟨article.url, article.name, article.snippet⟩, .preview),
          by simp [processSourceAgent, fetchContent]⟩
      · by_cases hc : c.isEmpty
        · exact ⟨(⟨article.url, article.name, article.snippet⟩, .preview),
            by simp [processSourceAgent, fetchContent, hc]⟩
        · exact ⟨(⟨article.url, article.name, c⟩, .fetched),
            by simp [processSourceAgent, fetchContent, hc]⟩
  · intro e he
    rcases resp with e' | ⟨b, d⟩
    · by_cases h429 : strIncludes e' "429"
      · simp only [processSourceAgent, fetchContent, h429, if_true] at he
        rw [Except.error.injEq] at he
        subst he
        exact ⟨rfl, h429⟩
      · simp [processSourceAgent, fetchContent, h429] at he
    · rcases b with _ | _
      · simp [processSourceAgent, fetchContent, hconst] at he
      · rcases d with _ | c
        · simp [processSourceAgent, fetchContent] at he
        · by_cases hc : c.isEmpty
          · simp [processSourceAgent, fetchContent, hc] at he
          · simp [processSourceAgent, fetchContent, hc] at he
  · intro results oracle
    rfl

theorem content_fetch_fallback_witness :
    processSourceAgent sampleArticle (.error "network down") =
      .ok (⟨sampleArticle.url, sampleArticle.name, sampleArticle.snippet⟩, .preview) :=
  (content_fetch_fallback sampleArticle sampleArticle (.ok none)
      (.error "network down")).2.2.1 "network down" rfl (by decide)

/-- C9 counterexample: node-id allocation is not collision-free as an
absolute guarantee: the id is a pure function of the type, the tick and
the random draw, so two same-tick creations drawing the same suffix
collide, and a caller-supplied truthy `data.id` is used verbatim
regardless of tick. -/
theorem create_node_id_collision :
    ¬ (∀ (type : String) (now : Nat) (rand₁ rand₂ : String),
         createNodeId none type now rand₁ ≠ createNodeId none type now rand₂)
  ∧ createNodeId none "reportNode" 1700000000000 "k3j9x2a"
      = createNodeId none "reportNode" 1700000000000 "k3j9x2a"
  ∧ createNodeId (some "dup") "reportNode" 1 "aaa"
      = createNodeId (some "dup") "searchNode" 2 "bbb" := by
  refine ⟨fun h => h "reportNode" 1700000000000 "a" "a" rfl, rfl, by decide⟩

/-- C9 (amended): within one tick, generated ids (no caller-supplied
`data.id`) are distinct whenever the random suffixes drawn differ; the
guarantee is only as strong as the distinctness of the draws. -/
theorem create_node_id_distinct (type : String) (now : Nat) (rand₁ rand₂ : String)
    (h : rand₁ ≠ rand₂) :
    createNodeId none type now rand₁ ≠ createNodeId none type now rand₂ := by
  intro he
  apply h
  simp only [createNodeId, genNodeId] at he
  have hdata := congrArg String.data he
  simp only [String.data_append] at hdata
  have hcancel := List.append_cancel_left hdata
  exact congrArg String.mk hcancel

theorem create_node_id_distinct_witness :
    createNodeId none "reportNode" 5 "aa" ≠ createNodeId none "reportNode" 5 "ab" :=
  create_node_id_distinct "reportNode" 5 "aa" "ab" (by decide)



/-- C5 counterexample: the claim describes strategy 3 as parsing "the
first balanced brace-delimited region", but the source keeps scanning: on
this input the first balanced region does not parse (even after cleanup),
a later one does, and `extractAndParseJSON` succeeds although all three
strategies as described by the claim fail. -/
theorem extract_json_first_region_refutation :
    extractAndParseJSON "\x7bbad\x7d \x7b\"a\":1\x7d" = .ok (.obj [("a", .num "1")])
  ∧ parseJson "\x7bbad\x7d \x7b\"a\":1\x7d" = none
  ∧ codeBlockGroup "\x7bbad\x7d \x7b\"a\":1\x7d" = none
  ∧ firstBalancedRegion "\x7bbad\x7d \x7b\"a\":1\x7d" = some "\x7bbad\x7d"
  ∧ parseJson (cleanJson "\x7bbad\x7d") = none
  ∧ parseJson "\x7bbad\x7d" = none :=
  ⟨rfl, rfl, rfl, rfl, rfl, rfl⟩

/-- C5 (amended): the three decode attempts are tried in order (strict
whole-payload parse, cleaned code-block parse, balanced-brace scan that
parses successive string-aware regions after cleanup, returning the first
region that decodes); the first success is returned, and the named error
is thrown exactly when all three attempts fail — the only error ever
thrown carries that message. -/
theorem extract_and_parse_json_strategies (response : String) :
    (∀ v, parseJson response = some v → extractAndParseJSON response = .ok v)
  ∧ (parseJson response = none → ∀ v, attempt2 response = some v →
      extractAndParseJSON response = .ok v)
  ∧ (parseJson response = none → attempt2 response = none → ∀ v,
      attempt3 response = some v → extractAndParseJSON response = .ok v)
  ∧ (extractAndParseJSON response = .error "No valid JSON found in response"
      ↔ parseJson response = none ∧ attempt2 response = none ∧ attempt3 response = none)
  ∧ (∀ msg, extractAndParseJSON response = .error msg →
      msg = "No valid JSON found in response") := by
  refine ⟨?_, ?_, ?_, ?_, ?_⟩
  · intro v h
    simp [extractAndParseJSON, h]
  · intro h1 v h2
    simp [extractAndParseJSON, h1, h2]
  · intro h1 h2 v h3
    simp [extractAndParseJSON, h1, h2, h3]
  · constructor
    · intro h
      rcases ha : parseJson response with _ | v
      · rcases hb : attempt2 response with _ | v
        · rcases hc : attempt3 response with _ | v
          · exact ⟨rfl, rfl, rfl⟩
          · simp [extractAndParseJSON, ha, hb, hc] at h
        · simp [extractAndParseJSON, ha, hb] at h
      · simp [extractAndParseJSON, ha] at h
    · rintro ⟨ha, hb, hc⟩
      simp [extractAndParseJSON, ha, hb, hc]
  · intro msg h
    rcases ha : parseJson response with _ | v
    · rcases hb : attempt2 response with _ | v
      · rcases hc : attempt3 response with _ | v
        · simp [extractAndParseJSON, ha, hb, hc] at h
          exact h.symm
        · simp [extractAndParseJSON, ha, hb, hc] at h
      · simp [extractAndParseJSON, ha, hb] at h
    · simp [extractAndParseJSON, ha] at h

theorem extract_and_parse_json_strategies_witness :
    extractAndParseJSON "true" = .ok (.bool true) :=
  (extract_and_parse_json_strategies "true").1 (.bool true) rfl

/-- C6: when strict decoding of the model response yields a `searchTerms`
array of length 3, exactly those 3 terms are returned; otherwise the route
does not fail but returns the line-based fallback: at most 3 lines, each a
non-empty trimmed line of the raw response. -/
theorem follow_up_terms_contract (response : String) :
    (∀ ts, decodeSearchTerms response = some ts →
       followUpTerms response = ts ∧ ts.length = 3)
  ∧ (decodeSearchTerms response = none →
       followUpTerms response = (fallbackLines response).map Json.str
       ∧ (fallbackLines response).length ≤ 3
       ∧ (∀ t ∈ fallbackLines response, ¬ t = ""
            ∧ ∃ l ∈ splitCharList '\n' response.toList, t = String.mk (trimChars l))) := by
  constructor
  · intro ts h
    refine ⟨by simp [followUpTerms, h], ?_⟩
    unfold decodeSearchTerms at h
    split at h
    · simp at h
    · split at h
      · split at h
        · rename_i heq
          rw [Option.some.injEq] at h
          subst h
          simpa using heq
        · simp at h
      · simp at h
  · intro h
    refine ⟨by simp [followUpTerms, h], ?_, ?_⟩
    · unfold fallbackLines
      exact List.length_take_le 3 _
    · intro t ht
      unfold fallbackLines at ht
      have ht2 := List.mem_of_mem_take ht
      rcases List.mem_filter.mp ht2 with ⟨hmem, hpred⟩
      simp only [Bool.and_eq_true, decide_eq_true_eq] at hpred
      constructor
      · intro he
        rw [he] at hpred
        simp at hpred
      · rcases List.mem_map.mp hmem with ⟨l, hl, heq⟩
        exact ⟨l, hl, heq.symm⟩

theorem follow_up_terms_contract_witness :
    followUpTerms "\x7b\"searchTerms\":[\"a\",\"b\",\"c\"]\x7d"
      = [Json.str "a", Json.str "b", Json.str "c"] :=
  ((follow_up_terms_contract "\x7b\"searchTerms\":[\"a\",\"b\",\"c\"]\x7d").1
    [Json.str "a", Json.str "b", Json.str "c"] rfl).1

/-- C7: for the topic "test" the optimizer, search and ranking routes all
answer from their canned branches without consulting the remote
collaborators (for any remote outcome), the canned ranking scores the
first result 1 and the rest 0.5, and the pipeline's diversity selection
returns exactly the first canned result (all three canned results share
the hostname example.com). -/
theorem test_topic_pipeline (ts : Nat) (optRemote : Option OptimizeResponse)
    (searchRemote : Option (List BingWebPage)) (analyzeRemote : Option (List Ranking)) :
    optimizeRoute "test" optRemote = (some cannedOptimize, false)
  ∧ searchRoute "test" true searchRemote = (some cannedSearchResults, false)
  ∧ (analyzeRoute cannedOptimize.optimizedPrompt
      (cannedSearchResults.map (fun r => ⟨r.name, r.snippet, r.url⟩)) true analyzeRemote).2
      = false
  ∧ ((analyzeRoute cannedOptimize.optimizedPrompt
      (cannedSearchResults.map (fun r => ⟨r.name, r.snippet, r.url⟩)) true analyzeRemote).1.map
      (fun rks => rks.map Ranking.score)) = some [1, half, half]
  ∧ (agentPipeline "test" ts optRemote searchRemote analyzeRemote).2 = false
  ∧ ((agentPipeline "test" ts optRemote searchRemote analyzeRemote).1.map
      (fun sel => sel.map (fun r => (r.url, r.name, r.score))))
      = .ok [("https://example.com/test-1", "Test Result 1", (1 : ℚ))] :=
  ⟨rfl, rfl, rfl, rfl, rfl, rfl⟩

/-- C10 counterexample: on a successful import, an empty-string
current-project pointer is kept even though its id appears in no imported
project (the source's truthiness guard skips the removal check), so
"removed exactly when its id does not appear" fails. -/
theorem import_flow_projects_empty_pointer_kept :
    (importFlowProjects "[]" ⟨none, some ""⟩).1 = true
  ∧ (importFlowProjects "[]" ⟨none, some ""⟩).2.current = some ""
  ∧ (([] : List Json).any (fun p => idMatches p "")) = false :=
  ⟨rfl, rfl, rfl⟩

/-- C10 (amended): the import returns true iff the text parses as a JSON
array whose elements all carry truthy `id`, `name`, `createdAt` and
`updatedAt`; any failure leaves storage unchanged; on success the raw text
is stored and a non-empty current-project pointer is removed exactly when
no imported project carries its id, while an empty-string pointer is left
untouched. -/
theorem import_flow_projects_contract (jsonText : String) (st : FlowStorage) :
    ((importFlowProjects jsonText st).1 = true ↔
       ∃ ps, parseJson jsonText = some (.arr ps) ∧ ps.all validProject = true)
  ∧ ((importFlowProjects jsonText st).1 = false → (importFlowProjects jsonText st).2 = st)
  ∧ (∀ ps, parseJson jsonText = some (.arr ps) → ps.all validProject = true →
       (importFlowProjects jsonText st).2.projects = some jsonText
       ∧ (st.current = none → (importFlowProjects jsonText st).2.current = none)
       ∧ (∀ cid, st.current = some cid → cid.isEmpty = false →
            (importFlowProjects jsonText st).2.current =
              (if ps.any (fun p => idMatches p cid) then some cid else none))
       ∧ (∀ cid, st.current = some cid → cid.isEmpty = true →
            (importFlowProjects jsonText st).2.current = some cid)) := by
  refine ⟨?_, ?_, ?_⟩
  · constructor
    · intro h
      unfold importFlowProjects at h
      rcases hp : parseJson jsonText with _ | j
      · rw [hp] at h
        simp at h
      · rw [hp] at h
        cases j with
        | arr ps =>
          by_cases hv : ps.all validProject = true
          · exact ⟨ps, rfl, hv⟩
          · simp [hv] at h
        | null => simp at h
        | bool b => simp at h
        | num n => simp at h
        | str s2 => simp at h
        | obj o => simp at h
    · rintro ⟨ps, hp, hv⟩
      unfold importFlowProjects
      rw [hp]
      simp [hv]
  · intro h
    unfold importFlowProjects at h ⊢
    rcases hp : parseJson jsonText with _ | j
    · rfl
    · rw [hp] at h
      cases j with
      | arr ps =>
        by_cases hv : ps.all validProject = true
        · simp [hv] at h
        · simp [hv]
      | null => rfl
      | bool b => rfl
      | num n => rfl
      | str s2 => rfl
      | obj o => rfl
  · intro ps hp hv
    rcases hc : st.current with _ | cid
    · refine ⟨?_, ?_, ?_, ?_⟩
      · simp [importFlowProjects, hp, hv, hc]
      · intro _
        simp [importFlowProjects, hp, hv, hc]
      · intro cid2 hcid2
        exact absurd hcid2 (by simp)
      · intro cid2 hcid2
        exact absurd hcid2 (by simp)
    · refine ⟨?_, ?_, ?_, ?_⟩
      · by_cases hemp : cid.isEmpty = true
        · simp [importFlowProjects, hp, hv, hc, hemp]
        · by_cases hany : ps.any (fun p => idMatches p cid) = true
          · simp [importFlowProjects, hp, hv, hc, hemp, hany]
          · simp [importFlowProjects, hp, hv, hc, hemp, hany]
      · intro hnone
        exact absurd hnone (by simp)
      · intro cid2 hcid2 hne
        rw [Option.some.injEq] at hcid2
        subst hcid2
        by_cases hany : ps.any (fun p => idMatches p cid) = true
        · simp [importFlowProjects, hp, hv, hc, hne, hany]
        · simp [importFlowProjects, hp, hv, hc, hne, hany]
      · intro cid2 hcid2 hyes
        rw [Option.some.injEq] at hcid2
        subst hcid2
        simp [importFlowProjects, hp, hv, hc, hyes]

theorem import_flow_projects_contract_witness :
    (importFlowProjects sampleProjectsJson ⟨none, some "zz"⟩).2.current = none := by
  have h := ((import_flow_projects_contract sampleProjectsJson ⟨none, some "zz"⟩).2.2
    [Json.obj [("id", .str "p1"), ("name", .str "N"), ("createdAt", .str "c"),
               ("updatedAt", .str "u")]] rfl rfl).2.2.1 "zz" rfl rfl
  rw [h]
  rfl
